import Mathlib

/-!
consulsvc: registration of a service with a Consul agent

A shallow embedding of `consulregsvc.go`.

* Go strings are modelled by Lean `String`s (sequences of characters), `int` by `Int`,
  a `[]string` by `List String` (the nil slice is `[]`), an `error` result by
  `Option Error` (`none` is `nil`).
* The receiver `cr *ConsulRegistration` is state passed explicitly; together with the
  sequence of effects performed so far it forms a `State`.
* Everything outside the package is a parameter, gathered in `World`: the value of
  `HOST_IP`, and the outcome of every call into `github.com/hashicorp/consul/api`,
  which may depend on everything that happened before it.
* The standard-library functions the package calls (`strings.Contains`,
  `strings.Replace`, `strconv.Itoa`) are modelled after their documentation.
* `log.Printf` is recorded with the message it formats, without the logger's own
  line header.
* The goroutine started by `RegisterWithConsul` is recorded as an effect; its body is a
  function of what the channel receive yields and of the shared registration as the
  goroutine finds it when the receive returns.
-/

namespace consulsvc

/-! ## Standard library: `strings` and `strconv` -/

/-- Offset of the first instance of `substr` in `s`, if there is one. -/
def indexOf (substr : List Char) : List Char → Option Nat
  | [] => if substr.isEmpty then some 0 else none
  | c :: cs =>
    if substr.isPrefixOf (c :: cs) then some 0
    else (indexOf substr cs).map (· + 1)

/-- Go `strings.Index(s, substr)`: the index of the first instance of `substr` in `s`,
or `-1` if `substr` is not present in `s`. -/
def stringsIndex (s substr : String) : Int :=
  match indexOf substr.data s.data with
  | some i => (i : Int)
  | none => -1

/-- Go `strings.Contains(s, substr)`: `Index(s, substr) >= 0`. -/
def stringsContains (s substr : String) : Bool :=
  decide (stringsIndex s substr ≥ 0)

/-- Replacement of the first `n` non-overlapping instances of a non-empty `old`;
`skip` counts the characters of a replaced instance that are still to be dropped. -/
def replaceFirst (old new : List Char) : List Char → Nat → Nat → List Char
  | [], _, _ => []
  | _ :: cs, n, skip + 1 => replaceFirst old new cs n skip
  | c :: cs, 0, 0 => c :: cs
  | c :: cs, n + 1, 0 =>
    if old.isPrefixOf (c :: cs) then new ++ replaceFirst old new cs n (old.length - 1)
    else c :: replaceFirst old new cs (n + 1) 0

/-- Replacement of an empty `old`: it matches at the beginning of the string and after
each character, at most `n` times. -/
def replaceEmpty (new : List Char) : List Char → Nat → List Char
  | s, 0 => s
  | [], _ + 1 => new
  | c :: cs, n + 1 => new ++ c :: replaceEmpty new cs n

/-- Go `strings.Replace(s, old, new, n)`: a copy of `s` with the first `n`
non-overlapping instances of `old` replaced by `new`; if `n < 0` there is no limit on
the number of replacements. -/
def stringsReplace (s old new : String) (n : Int) : String :=
  if old = new ∨ n = 0 then s
  else
    let limit : Nat := if n < 0 then s.length + 1 else n.toNat
    if old.data.isEmpty then ⟨replaceEmpty new.data s.data limit⟩
    else ⟨replaceFirst old.data new.data s.data limit 0⟩

/-- Go `strconv.Itoa(i)`: the decimal rendering of `i`, with a leading `-` when negative. -/
def strconvItoa : Int → String
  | Int.ofNat n => Nat.repr n
  | Int.negSucc n => "-" ++ Nat.repr (n + 1)

/-! ## Data model -/

/-- Go `error` value, identified with the text its `Error()` method returns. -/
structure Error where
  text : String
  deriving DecidableEq, Repr

/-- The struct `ConsulRegistration`. -/
structure ConsulRegistration where
  SvcID : String
  SvcName : String
  SvcProtocol : String
  SvcIP : String
  SvcPort : Int
  SvcHealthURL : String
  SvcTags : List String
  ConsulURL : String
  SvcSkipSSL : Bool
  Registered : Bool
  deriving DecidableEq, Repr

/-- The fields of `api.AgentServiceCheck` that the package sets. -/
structure AgentServiceCheck where
  TLSSkipVerify : Bool
  Interval : String
  Timeout : String
  HTTP : String
  Status : String
  deriving DecidableEq, Repr

/-- The fields of `api.AgentServiceRegistration` that the package sets; `Check` is a
pointer, `Checks` a slice. -/
structure AgentServiceRegistration where
  ID : String
  Name : String
  Tags : List String
  Port : Int
  Check : Option AgentServiceCheck
  Checks : List AgentServiceCheck
  deriving DecidableEq, Repr

/-- The signals the shutdown hook subscribes to with `signal.Notify`. -/
inductive Signal where
  | SIGTERM
  | Interrupt
  deriving DecidableEq, Repr

/-- The effects of the package that are visible outside it, in the order performed. -/
inductive Event where
  /-- Call `api.NewClient(config)` with `config.Address = address`. -/
  | NewClient (address : String)
  /-- Call `agent.ServiceRegister(&consulService)` on a client for `address`. -/
  | ServiceRegister (address : String) (consulService : AgentServiceRegistration)
  /-- Call `agent.ServiceDeregister(serviceID)` on a client for `address`. -/
  | ServiceDeregister (address : String) (serviceID : String)
  /-- Call `log.Printf`, with the formatted message. -/
  | Printf (message : String)
  /-- The statement `go cr.deregisterWithConsulOnSigTermOrInterrupt()`. -/
  | Go
  /-- Call `os.Exit(code)`. -/
  | Exit (code : Int)
  deriving DecidableEq, Repr

/-- What lies outside the package. Each registry call is answered with an error or with
`none` (success); the answer may depend on the effects performed before the call. -/
structure World where
  /-- Result of `os.LookupEnv("HOST_IP")`: `none` when the variable is not set. -/
  HOST_IP : Option String
  /-- Result of `api.NewClient(config)` for `config.Address`. -/
  NewClient : List Event → String → Option Error
  /-- Result of `agent.ServiceRegister` on a client for the given address. -/
  ServiceRegister : List Event → String → AgentServiceRegistration → Option Error
  /-- Result of `agent.ServiceDeregister` on a client for the given address. -/
  ServiceDeregister : List Event → String → String → Option Error

/-- The registration the receiver points to, and the effects performed so far. -/
structure State where
  cr : ConsulRegistration
  trace : List Event
  deriving DecidableEq, Repr

/-- Extend the trace by one effect. -/
def State.emit (s : State) (e : Event) : State :=
  { s with trace := s.trace ++ [e] }

/-! ## The package -/

/-- Go `GetRegistration`: a new registration struct with some defaults. -/
def GetRegistration (name id : String) (port : Int) : ConsulRegistration :=
  { SvcID := id
    SvcName := name
    SvcProtocol := "http"
    SvcIP := "localhost"
    SvcPort := port
    SvcHealthURL := "/health"
    SvcTags := []
    ConsulURL := "localhost:8500"
    SvcSkipSSL := true
    Registered := false }

/-- The composite literal `consulService` built in `register`. -/
def consulService (cr : ConsulRegistration) : AgentServiceRegistration :=
  { ID := cr.SvcID
    Name := cr.SvcName
    Tags := cr.SvcTags
    Port := cr.SvcPort
    Check := some
      { TLSSkipVerify := cr.SvcSkipSSL
        Interval := "10s"
        Timeout := "5s"
        HTTP := cr.SvcProtocol ++ "://" ++ cr.SvcIP ++ ":" ++ strconvItoa cr.SvcPort
          ++ cr.SvcHealthURL
        Status := "passing" }
    Checks := [] }

/-- Go `(*ConsulRegistration).register`. -/
def register (w : World) (s : State) : Option Error × State :=
  let s1 := s.emit (Event.NewClient s.cr.ConsulURL)
  match w.NewClient s.trace s.cr.ConsulURL with
  | some err => (some err, s1)
  | none =>
    let s2 := s1.emit (Event.ServiceRegister s.cr.ConsulURL (consulService s.cr))
    match w.ServiceRegister s1.trace s.cr.ConsulURL (consulService s.cr) with
    | some err => (some err, s2)
    | none => (none, s2)

/-- Go `(*ConsulRegistration).deregister`. -/
def deregister (w : World) (s : State) : Option Error × State :=
  let s1 := s.emit (Event.NewClient s.cr.ConsulURL)
  match w.NewClient s.trace s.cr.ConsulURL with
  | some err => (some err, s1)
  | none =>
    (w.ServiceDeregister s1.trace s.cr.ConsulURL s.cr.SvcID,
      s1.emit (Event.ServiceDeregister s.cr.ConsulURL s.cr.SvcID))

/-- The assignments `RegisterWithConsul` makes before it calls `register`. -/
def substituteHostIP (w : World) (cr : ConsulRegistration) : ConsulRegistration :=
  match w.HOST_IP with
  | some hostIP =>
    if stringsContains cr.SvcHealthURL "localhost" then
      { cr with
        SvcIP := hostIP
        SvcHealthURL := stringsReplace cr.SvcHealthURL "localhost" hostIP 1 }
    else cr
  | none => cr

/-- Go `(*ConsulRegistration).RegisterWithConsul`. -/
def RegisterWithConsul (w : World) (autoDeregister : Bool) (s : State) :
    Option Error × State :=
  let s0 : State := { s with cr := substituteHostIP w s.cr }
  match register w s0 with
  | (some err, s1) =>
    (some err, s1.emit (Event.Printf
      ("Error registering with consul on " ++ s1.cr.ConsulURL ++ " - " ++ err.text ++ "\n")))
  | (none, s1) =>
    let s2 : State := { s1 with cr := { s1.cr with Registered := true } }
    if autoDeregister then (none, s2.emit Event.Go) else (none, s2)

/-- The line `DeregisterWithConsul` logs before it calls `deregister`. -/
def attemptMessage (cr : ConsulRegistration) : String :=
  "Attempting de-register (" ++ cr.SvcID ++ ") with consul on " ++ cr.ConsulURL ++ "\n"

/-- Go `(*ConsulRegistration).DeregisterWithConsul`. -/
def DeregisterWithConsul (w : World) (s : State) : Option Error × State :=
  if s.cr.Registered then
    let s1 := s.emit (Event.Printf (attemptMessage s.cr))
    match deregister w s1 with
    | (some err, s2) =>
      (some err, s2.emit (Event.Printf
        ("Error de-registering (" ++ s2.cr.SvcID ++ ") with consul on " ++ s2.cr.ConsulURL
          ++ " - " ++ err.text ++ "\n")))
    | (none, s2) =>
      (none, s2.emit (Event.Printf
        ("Successfully de-registered (" ++ s2.cr.SvcID ++ ") with consul on "
          ++ s2.cr.ConsulURL ++ " \n")))
  else (none, s)

/-- Go `(*ConsulRegistration).deregisterWithConsulOnSigTermOrInterrupt`, the body of the
goroutine. `sigChannel` is what the receive `<-sigChannel` yields: `none` when no
subscribed signal is ever delivered, in which case the goroutine stays blocked. `s` is
the shared state as the goroutine finds it when it resumes. The second component of the
result is the exit status of the process, `none` while the process runs. -/
def deregisterWithConsulOnSigTermOrInterrupt (w : World) (sigChannel : Option Signal)
    (s : State) : State × Option Int :=
  match sigChannel with
  | none => (s, none)
  | some _ =>
    let s1 := (DeregisterWithConsul w s).2
    (s1.emit (Event.Exit 0), some 0)

/-! ## Sample worlds and states -/

/-- A world in which `HOST_IP` is not set and every call into the client library
succeeds. -/
def agentUp : World :=
  { HOST_IP := none
    NewClient := fun _ _ => none
    ServiceRegister := fun _ _ _ => none
    ServiceDeregister := fun _ _ _ => none }

/-- A world in which clients are built but the agent refuses every request. -/
def agentDown : World :=
  { HOST_IP := none
    NewClient := fun _ _ => none
    ServiceRegister := fun _ _ _ => some ⟨"connection refused"⟩
    ServiceDeregister := fun _ _ _ => some ⟨"connection refused"⟩ }

/-- A world in which `api.NewClient` rejects the address `ftp://consul:8500`, whose
scheme it does not know, and everything else succeeds. -/
def unknownScheme : World :=
  { HOST_IP := none
    NewClient := fun _ address =>
      if address = "ftp://consul:8500" then some ⟨"Unknown protocol scheme: ftp"⟩ else none
    ServiceRegister := fun _ _ _ => none
    ServiceDeregister := fun _ _ _ => none }

/-- A world like `agentUp` in which `HOST_IP` is set to `10.0.0.5`. -/
def hostIPSet : World :=
  { agentUp with HOST_IP := some "10.0.0.5" }

/-- A world like `agentUp` in which `HOST_IP` is set to `localhost` itself. -/
def hostIsLocalhost : World :=
  { agentUp with HOST_IP := some "localhost" }

/-- A world in which a client can be built only before anything else has happened:
client construction succeeds at registration and fails at every later call. -/
def clientLost : World :=
  { HOST_IP := none
    NewClient := fun history _ =>
      if history.isEmpty then none else some ⟨"failed to set up TLS"⟩
    ServiceRegister := fun _ _ _ => none
    ServiceDeregister := fun _ _ _ => none }

/-- A registration whose health URL names the placeholder host once. -/
def oneLocalhost : State :=
  { cr := { GetRegistration "svc" "svc-1" 8080 with
      SvcHealthURL := "http://localhost:8080/health" }
    trace := [] }

/-- A registration whose health URL names the placeholder host twice. -/
def twoLocalhosts : State :=
  { cr := { GetRegistration "svc" "svc-1" 8080 with
      SvcHealthURL := "/localhost/localhost" }
    trace := [] }

/-- A registration with the flag set whose registry address has the scheme `ftp`. -/
def registeredAtFtp : State :=
  { cr := { GetRegistration "svc" "svc-1" 8080 with
      ConsulURL := "ftp://consul:8500"
      Registered := true }
    trace := [] }

/-- A registration with the flag set, at the default registry address. -/
def registered : State :=
  { cr := { GetRegistration "svc" "svc-1" 8080 with Registered := true }
    trace := [] }

/-- A registration whose health path is `status`, without a leading slash. -/
def barePath : State :=
  { cr := { GetRegistration "svc" "svc-1" 8080 with SvcHealthURL := "status" }
    trace := [] }

/-- A fresh process holding the default registration of service `svc`. -/
def fresh : State :=
  { cr := GetRegistration "svc" "svc-1" 8080, trace := [] }

/-! ## Reading a trace -/

/-- Whether an effect is a call into the Consul client library. -/
def Event.isRegistryCall : Event → Bool
  | Event.NewClient _ => true
  | Event.ServiceRegister _ _ => true
  | Event.ServiceDeregister _ _ => true
  | _ => false

/-- The calls into the Consul client library among the effects, in order. -/
def registryCalls (tr : List Event) : List Event :=
  tr.filter Event.isRegistryCall

/-- The service-registration requests among the effects: address and request. -/
def registrations (tr : List Event) : List (String × AgentServiceRegistration) :=
  tr.filterMap fun e =>
    match e with
    | Event.ServiceRegister a r => some (a, r)
    | _ => none

/-- The deregistration calls among the effects: address and service ID. -/
def deregistrations (tr : List Event) : List (String × String) :=
  tr.filterMap fun e =>
    match e with
    | Event.ServiceDeregister a id => some (a, id)
    | _ => none

/-- The addresses for which a client was requested, in order. -/
def clientsRequested (tr : List Event) : List String :=
  tr.filterMap fun e =>
    match e with
    | Event.NewClient a => some a
    | _ => none

/-- The number of shutdown hooks started. -/
def hooksStarted (tr : List Event) : Nat :=
  tr.count Event.Go

/-! ## Properties stated about the package -/

/-- What it means for `t` to be `s` with its first instance of `old` replaced by `new`:
`s` splits around an instance of `old`, no instance of `old` starts further left, and
`t` has `new` in its place between the same two parts. -/
def FirstInstanceReplaced (s old new t : String) : Prop :=
  ∃ pre post : String, s = pre ++ old ++ post ∧ t = pre ++ new ++ post ∧
    ∀ pre2 post2 : String, s = pre2 ++ old ++ post2 → pre.length ≤ pre2.length

/-- The number of places in a string at which an instance of `substr` starts. -/
def occurrences (substr : List Char) : List Char → Nat
  | [] => if substr.isEmpty then 1 else 0
  | c :: cs => (if substr.isPrefixOf (c :: cs) then 1 else 0) + occurrences substr cs

/-- A health-check URL has the form `protocol://ip:port/healthPath` for the registration
`cr`: it is `SvcProtocol`, `://`, `SvcIP`, `:` and the decimal `SvcPort`, then a slash,
then a path. -/
def HealthURLHasForm (cr : ConsulRegistration) (url : String) : Prop :=
  ∃ healthPath : String,
    url = cr.SvcProtocol ++ "://" ++ cr.SvcIP ++ ":" ++ strconvItoa cr.SvcPort ++ "/"
      ++ healthPath

/-- The part of claim C4 about the URL, at one world and state: every service
registration `register` sends has a health check whose HTTP URL has the form
`protocol://ip:port/healthPath`. -/
def RegisterSendsFormedURL (w : World) (s : State) : Prop :=
  ∀ p ∈ registrations (register w s).2.trace,
    ∃ check, p.2.Check = some check ∧ HealthURLHasForm s.cr check.HTTP

/-- Claim C3 as stated, at one world and state: one call of `DeregisterWithConsul`
issues exactly one deregistration call, to `ConsulURL` and for `SvcID`, and returns the
result of that call. -/
def DeregistersOnce (w : World) (s : State) : Prop :=
  deregistrations (DeregisterWithConsul w s).2.trace
    = deregistrations s.trace ++ [(s.cr.ConsulURL, s.cr.SvcID)] ∧
  (DeregisterWithConsul w s).1
    = w.ServiceDeregister
        (s.trace ++ [Event.Printf (attemptMessage s.cr), Event.NewClient s.cr.ConsulURL])
        s.cr.ConsulURL s.cr.SvcID

/-- Claim C10 as stated, at one world and state: `DeregisterWithConsul` changes no
field, and two consecutive calls on a registered service issue two deregistration
calls for the same `SvcID`. -/
def DeregisterKeepsFlagAndRepeats (w : World) (s : State) : Prop :=
  (DeregisterWithConsul w s).2.cr = s.cr ∧
  (s.cr.Registered = true →
    deregistrations (DeregisterWithConsul w (DeregisterWithConsul w s).2).2.trace
      = deregistrations s.trace ++ [(s.cr.ConsulURL, s.cr.SvcID), (s.cr.ConsulURL, s.cr.SvcID)])

/-- Claim C9 as stated, at one world, signal and state: after a successful
`RegisterWithConsul(true)`, the hook that receives the signal issues exactly one
deregistration call, for the stored `SvcID`, and exits with status 0. -/
def HookDeregistersOnce (w : World) (sig : Signal) (s : State) : Prop :=
  (RegisterWithConsul w true s).1 = none →
    deregistrations
        (deregisterWithConsulOnSigTermOrInterrupt w (some sig)
          (RegisterWithConsul w true s).2).1.trace
      = deregistrations (RegisterWithConsul w true s).2.trace
          ++ [(s.cr.ConsulURL, s.cr.SvcID)] ∧
    (deregisterWithConsulOnSigTermOrInterrupt w (some sig)
      (RegisterWithConsul w true s).2).2 = some 0

/-- Claim C7 as stated, at one world and state: if the first call performs the
substitution, then afterwards `localhost` is gone from `SvcHealthURL` and a second call
leaves `SvcIP` and `SvcHealthURL` as the first left them. -/
def SubstitutionIsOneTime (w : World) (auto1 auto2 : Bool) (s : State) : Prop :=
  (w.HOST_IP ≠ none ∧ stringsContains s.cr.SvcHealthURL "localhost" = true) →
    stringsContains (RegisterWithConsul w auto1 s).2.cr.SvcHealthURL "localhost" = false ∧
    (RegisterWithConsul w auto2 (RegisterWithConsul w auto1 s).2).2.cr.SvcIP
      = (RegisterWithConsul w auto1 s).2.cr.SvcIP ∧
    (RegisterWithConsul w auto2 (RegisterWithConsul w auto1 s).2).2.cr.SvcHealthURL
      = (RegisterWithConsul w auto1 s).2.cr.SvcHealthURL

/-! ## Facts about the string functions -/

theorem indexOf_none {sub : List Char} :
    ∀ {l : List Char}, indexOf sub l = none → ∀ pre post, l ≠ pre ++ sub ++ post := by
  intro l
  induction l with
  | nil =>
    intro h pre post hl
    have hs : sub = [] := by
      have := congrArg List.length hl
      simp at this
      exact List.length_eq_zero.mp (by omega)
    simp [indexOf, hs] at h
  | cons c cs ih =>
    intro h pre post hl
    unfold indexOf at h
    split at h
    · simp at h
    · rename_i hp
      have h1 : indexOf sub cs = none := by simpa using h
      cases pre with
      | nil =>
        apply hp
        rw [List.isPrefixOf_iff_prefix]
        exact ⟨post, by simpa using hl.symm⟩
      | cons p ps =>
        simp at hl
        exact ih h1 ps post (by simpa using hl.2)

theorem indexOf_some {sub : List Char} :
    ∀ {l : List Char} {i : Nat}, indexOf sub l = some i →
      ∃ pre post, l = pre ++ sub ++ post ∧ pre.length = i ∧
        ∀ pre2 post2, l = pre2 ++ sub ++ post2 → pre.length ≤ pre2.length := by
  intro l
  induction l with
  | nil =>
    intro i h
    unfold indexOf at h
    split at h
    · rename_i he
      have hs : sub = [] := by simpa using he
      refine ⟨[], [], by simp [hs], by simpa using h, by simp⟩
    · simp at h
  | cons c cs ih =>
    intro i h
    unfold indexOf at h
    split at h
    · rename_i hp
      rw [List.isPrefixOf_iff_prefix] at hp
      obtain ⟨post, hpost⟩ := hp
      refine ⟨[], post, by simpa using hpost.symm, by simpa using h, by simp⟩
    · rename_i hp
      cases hj : indexOf sub cs with
      | none => simp [hj] at h
      | some j =>
        obtain ⟨pre, post, hl, hlen, hmin⟩ := ih hj
        refine ⟨c :: pre, post, by simp [hl], ?_, ?_⟩
        · simp [hj] at h
          simp [hlen, h]
        · intro pre2 post2 hl2
          cases pre2 with
          | nil =>
            exfalso
            apply hp
            rw [List.isPrefixOf_iff_prefix]
            exact ⟨post2, by simpa using hl2.symm⟩
          | cons p ps =>
            simp at hl2
            have := hmin ps post2 (by simpa using hl2.2)
            simp
            omega

theorem replaceFirst_zero (old new : List Char) :
    ∀ (l : List Char) (k : Nat), replaceFirst old new l 0 k = l.drop k := by
  intro l
  induction l with
  | nil => intro k; simp [replaceFirst]
  | cons c cs ih =>
    intro k
    cases k with
    | zero => simp [replaceFirst]
    | succ k => simp [replaceFirst, ih]

theorem replaceFirst_one {old : List Char} (new : List Char) (hold : old ≠ []) :
    ∀ (pre post : List Char),
      (∀ pre2 post2, pre ++ old ++ post = pre2 ++ old ++ post2 → pre.length ≤ pre2.length) →
      replaceFirst old new (pre ++ old ++ post) 1 0 = pre ++ new ++ post := by
  intro pre
  induction pre with
  | nil =>
    intro post _
    cases old with
    | nil => exact absurd rfl hold
    | cons o os =>
      have hp : (o :: os).isPrefixOf (o :: (os ++ post)) = true := by
        rw [List.isPrefixOf_iff_prefix]
        exact ⟨post, by simp⟩
      simp only [List.nil_append, List.cons_append, replaceFirst, hp, if_true,
        replaceFirst_zero, List.length_cons, Nat.add_sub_cancel]
      simp
  | cons c p ih =>
    intro post hmin
    have hp : old.isPrefixOf (c :: (p ++ old ++ post)) = false := by
      rw [Bool.eq_false_iff]
      intro hp
      rw [List.isPrefixOf_iff_prefix] at hp
      obtain ⟨post2, hpost2⟩ := hp
      have := hmin [] post2 (by simpa using hpost2.symm)
      simp at this
    have ih2 := ih post (by
      intro pre2 post2 h2
      have := hmin (c :: pre2) post2 (by simp [h2])
      simpa using this)
    have step : replaceFirst old new (c :: (p ++ old ++ post)) 1 0
        = c :: replaceFirst old new (p ++ old ++ post) 1 0 := by
      rw [replaceFirst, hp]
      simp
    calc replaceFirst old new (c :: p ++ old ++ post) 1 0
        = replaceFirst old new (c :: (p ++ old ++ post)) 1 0 := by simp
      _ = c :: (p ++ new ++ post) := by rw [step, ih2]
      _ = c :: p ++ new ++ post := by simp

/-- The examples of the Go documentation for `strings.Replace`, `strings.Contains`,
`strings.Index` and `strconv.Itoa`, and the empty-pattern case of `Replace`. -/
theorem strings_documented_examples :
    stringsReplace "oink oink oink" "k" "ky" 2 = "oinky oinky oink" ∧
    stringsReplace "oink oink oink" "oink" "moo" (-1) = "moo moo moo" ∧
    stringsReplace "abc" "" "-" (-1) = "-a-b-c-" ∧
    stringsReplace "abc" "" "-" 2 = "-a-bc" ∧
    stringsContains "seafood" "foo" = true ∧
    stringsContains "seafood" "bar" = false ∧
    stringsContains "seafood" "" = true ∧
    stringsContains "" "" = true ∧
    stringsIndex "chicken" "ken" = 4 ∧
    stringsIndex "chicken" "dmr" = -1 ∧
    strconvItoa 10 = "10" ∧
    strconvItoa (-45) = "-45" ∧
    strconvItoa 0 = "0" := by
  decide

theorem stringsContains_eq (s substr : String) :
    stringsContains s substr = (indexOf substr.data s.data).isSome := by
  unfold stringsContains stringsIndex
  cases indexOf substr.data s.data with
  | none => simp
  | some i => simp

theorem stringsContains_iff (s substr : String) :
    stringsContains s substr = true ↔ ∃ pre post : String, s = pre ++ substr ++ post := by
  rw [stringsContains_eq]
  constructor
  · intro h
    cases hi : indexOf substr.data s.data with
    | none => simp [hi] at h
    | some i =>
      obtain ⟨pre, post, hl, _, _⟩ := indexOf_some hi
      exact ⟨⟨pre⟩, ⟨post⟩, String.ext (by simpa using hl)⟩
  · rintro ⟨pre, post, hs⟩
    cases hi : indexOf substr.data s.data with
    | none =>
      exact absurd (by simp [hs]) (indexOf_none hi pre.data post.data)
    | some i => simp

theorem stringsReplace_first (s old new : String) (hold : old ≠ "")
    (h : stringsContains s old = true) :
    FirstInstanceReplaced s old new (stringsReplace s old new 1) := by
  rw [stringsContains_eq] at h
  cases hi : indexOf old.data s.data with
  | none => simp [hi] at h
  | some i =>
    obtain ⟨pre, post, hl, _, hmin⟩ := indexOf_some hi
    have hs : s = (⟨pre⟩ : String) ++ old ++ ⟨post⟩ := String.ext (by simpa using hl)
    have hmin2 : ∀ pre2 post2 : String, s = pre2 ++ old ++ post2 →
        (⟨pre⟩ : String).length ≤ pre2.length := by
      intro pre2 post2 h2
      exact hmin pre2.data post2.data (by simp [h2])
    refine ⟨⟨pre⟩, ⟨post⟩, hs, ?_, hmin2⟩
    have hd : old.data ≠ [] := by
      intro hd
      exact hold (String.ext (by simpa using hd))
    unfold stringsReplace
    by_cases hon : old = new
    · simp only [hon, true_or, if_true]
      rw [← hon]
      exact hs
    · have hrep := replaceFirst_one new.data hd pre post (by
        intro pre2 post2 h2
        exact hmin pre2 post2 (by rw [hl]; exact h2))
      have hn : ¬ (old = new ∨ (1 : Int) = 0) := by simp [hon]
      have he : old.data.isEmpty = false := by
        cases hdd : old.data with
        | nil => exact absurd hdd hd
        | cons _ _ => rfl
      simp only [hn, if_false, he]
      apply String.ext
      simp only [String.data_append]
      rw [show ((if (1 : Int) < 0 then s.length + 1 else (1 : Int).toNat) : Nat) = 1 by simp]
      rw [hl]
      exact hrep

theorem occurrences_zero_of_indexOf_none {sub : List Char} :
    ∀ {l : List Char}, indexOf sub l = none → occurrences sub l = 0 := by
  intro l
  induction l with
  | nil =>
    intro h
    unfold indexOf at h
    split at h
    · simp at h
    · rename_i he
      simp [occurrences, he]
  | cons c cs ih =>
    intro h
    unfold indexOf at h
    split at h
    · simp at h
    · rename_i hp
      have h1 : indexOf sub cs = none := by simpa using h
      simp [occurrences, hp, ih h1]

theorem occurrences_suffix (sub : List Char) (b : List Char) :
    ∀ a : List Char, occurrences sub b ≤ occurrences sub (a ++ b) := by
  intro a
  induction a with
  | nil => simp
  | cons c cs ih =>
    have e : occurrences sub (c :: (cs ++ b))
        = (if sub.isPrefixOf (c :: (cs ++ b)) then 1 else 0) + occurrences sub (cs ++ b) := rfl
    rw [List.cons_append, e]
    omega

theorem occurrences_pos {sub : List Char} (hsub : sub ≠ []) (a b : List Char) :
    1 ≤ occurrences sub (a ++ sub ++ b) := by
  cases sub with
  | nil => exact absurd rfl hsub
  | cons o os =>
    have hp : (o :: os).isPrefixOf (o :: (os ++ b)) = true := by
      rw [List.isPrefixOf_iff_prefix]
      exact ⟨b, by simp⟩
    have h1 : 1 ≤ occurrences (o :: os) (o :: (os ++ b)) := by
      simp only [occurrences, hp, if_true]
      omega
    have h2 := occurrences_suffix (o :: os) (o :: (os ++ b)) a
    have e : a ++ (o :: os) ++ b = a ++ o :: (os ++ b) := by simp
    rw [e]
    omega

theorem no_instance_after {old : List Char} (hold : old ≠ []) (pre post : List Char)
    (hocc : occurrences old (pre ++ old ++ post) = 1) :
    ∀ a b, post ≠ a ++ old ++ b := by
  intro a b hpost
  cases old with
  | nil => exact absurd rfl hold
  | cons o os =>
    have hp : (o :: os).isPrefixOf (o :: (os ++ post)) = true := by
      rw [List.isPrefixOf_iff_prefix]
      exact ⟨post, by simp⟩
    have h1 : occurrences (o :: os) (o :: (os ++ post))
        = 1 + occurrences (o :: os) (os ++ post) := by
      simp only [occurrences, hp, if_true]
    have h2 := occurrences_suffix (o :: os) (o :: (os ++ post)) pre
    have h3 := occurrences_suffix (o :: os) post os
    have h4 : 1 ≤ occurrences (o :: os) post := by
      rw [hpost]
      exact occurrences_pos hold a b
    have e : pre ++ (o :: os) ++ post = pre ++ o :: (os ++ post) := by simp
    rw [e] at hocc
    omega

theorem no_instance_before {old : List Char} (hold : old ≠ []) (pre post : List Char)
    (hmin : ∀ pre2 post2, pre ++ old ++ post = pre2 ++ old ++ post2 → pre.length ≤ pre2.length) :
    ∀ a b, pre ≠ a ++ old ++ b := by
  intro a b hpre
  have h := hmin a (b ++ old ++ post) (by rw [hpre]; simp)
  rw [hpre] at h
  have : 0 < old.length := List.length_pos.mpr hold
  simp only [List.length_append] at h
  omega

theorem no_instance_replaced {old new : List Char} (pre post : List Char)
    (hpre : ∀ a b, pre ≠ a ++ old ++ b) (hpost : ∀ a b, post ≠ a ++ old ++ b)
    (hne : new ≠ []) (hdis : ∀ c ∈ new, c ∉ old) :
    ∀ a b, pre ++ new ++ post ≠ a ++ old ++ b := by
  intro a b h
  cases old with
  | nil => exact hpre [] pre (by simp)
  | cons o os =>
    rw [List.append_assoc, List.append_assoc, List.append_eq_append_iff] at h
    rcases h with ⟨m, _, hm⟩ | ⟨m, hp, hm⟩
    · rw [List.append_eq_append_iff] at hm
      rcases hm with ⟨n, _, hb⟩ | ⟨n, hn, hb⟩
      · exact hpost n b (by simpa using hb)
      · cases n with
        | nil => exact hpost [] b (by simpa using hb.symm)
        | cons c n2 =>
          simp only [List.cons_append, List.cons.injEq] at hb
          exact hdis c (by rw [hn]; simp) (by rw [← hb.1]; simp)
    · rw [List.append_eq_append_iff] at hm
      rcases hm with ⟨n, hn, _⟩ | ⟨n, hn, hb⟩
      · exact hpre a n (by rw [hp, hn]; simp)
      · cases n with
        | nil =>
          exact hpre a [] (by rw [hp]; simp at hn; rw [hn]; simp)
        | cons d n2 =>
          cases new with
          | nil => exact absurd rfl hne
          | cons c new2 =>
            simp only [List.cons_append, List.cons.injEq] at hb
            exact hdis c (by simp) (by rw [hn, hb.1]; simp)

theorem stringsContains_of_occurrences (s old : String)
    (hocc : occurrences old.data s.data = 1) : stringsContains s old = true := by
  rw [stringsContains_eq]
  cases hi : indexOf old.data s.data with
  | none =>
    have := occurrences_zero_of_indexOf_none hi
    omega
  | some i => rfl

/-- When `old` occurs exactly once in `s`, and `new` is not empty and shares no
character with `old`, no instance of `old` is left after the replacement. -/
theorem stringsReplace_gone (s old new : String) (hold : old ≠ "")
    (hocc : occurrences old.data s.data = 1) (hne : new ≠ "")
    (hdis : ∀ c ∈ new.data, c ∉ old.data) :
    stringsContains (stringsReplace s old new 1) old = false := by
  have hd : old.data ≠ [] := by
    intro hd
    exact hold (String.ext (by simpa using hd))
  have hnd : new.data ≠ [] := by
    intro hd
    exact hne (String.ext (by simpa using hd))
  obtain ⟨pre, post, hs, ht, hmin⟩ :=
    stringsReplace_first s old new hold (stringsContains_of_occurrences s old hocc)
  have hsd : s.data = pre.data ++ old.data ++ post.data := by simp [hs]
  have hbefore := no_instance_before hd pre.data post.data (by
    intro pre2 post2 h2
    exact hmin ⟨pre2⟩ ⟨post2⟩ (String.ext (by rw [hsd]; simpa using h2)))
  have hafter := no_instance_after hd pre.data post.data (by rw [← hsd]; exact hocc)
  have hnone := no_instance_replaced pre.data post.data hbefore hafter hnd hdis
  rw [Bool.eq_false_iff]
  intro hc
  rw [stringsContains_iff] at hc
  obtain ⟨a, b, hab⟩ := hc
  exact hnone a.data b.data (by
    have := congrArg String.data (ht.symm.trans hab)
    simpa using this)

/-! ## Frame lemmas -/

@[simp] theorem substituteHostIP_ConsulURL (w : World) (cr : ConsulRegistration) :
    (substituteHostIP w cr).ConsulURL = cr.ConsulURL := by
  unfold substituteHostIP
  split
  · split <;> rfl
  · rfl

@[simp] theorem substituteHostIP_Registered (w : World) (cr : ConsulRegistration) :
    (substituteHostIP w cr).Registered = cr.Registered := by
  unfold substituteHostIP
  split
  · split <;> rfl
  · rfl

@[simp] theorem substituteHostIP_SvcID (w : World) (cr : ConsulRegistration) :
    (substituteHostIP w cr).SvcID = cr.SvcID := by
  unfold substituteHostIP
  split
  · split <;> rfl
  · rfl

@[simp] theorem registryCalls_append (xs ys : List Event) :
    registryCalls (xs ++ ys) = registryCalls xs ++ registryCalls ys := by
  simp [registryCalls]

@[simp] theorem registrations_append (xs ys : List Event) :
    registrations (xs ++ ys) = registrations xs ++ registrations ys := by
  simp [registrations]

@[simp] theorem deregistrations_append (xs ys : List Event) :
    deregistrations (xs ++ ys) = deregistrations xs ++ deregistrations ys := by
  simp [deregistrations]

@[simp] theorem clientsRequested_append (xs ys : List Event) :
    clientsRequested (xs ++ ys) = clientsRequested xs ++ clientsRequested ys := by
  simp [clientsRequested]

@[simp] theorem hooksStarted_append (xs ys : List Event) :
    hooksStarted (xs ++ ys) = hooksStarted xs + hooksStarted ys := by
  simp [hooksStarted]

theorem register_cr (w : World) (s : State) : (register w s).2.cr = s.cr := by
  simp only [register]
  cases w.NewClient s.trace s.cr.ConsulURL with
  | some err => rfl
  | none =>
    simp only []
    cases w.ServiceRegister (s.emit (Event.NewClient s.cr.ConsulURL)).trace s.cr.ConsulURL
      (consulService s.cr) <;> rfl

theorem deregister_cr (w : World) (s : State) : (deregister w s).2.cr = s.cr := by
  simp only [deregister]
  cases w.NewClient s.trace s.cr.ConsulURL <;> rfl

theorem RegisterWithConsul_SvcIP (w : World) (autoDeregister : Bool) (s : State) :
    (RegisterWithConsul w autoDeregister s).2.cr.SvcIP = (substituteHostIP w s.cr).SvcIP := by
  have h := register_cr w { s with cr := substituteHostIP w s.cr }
  simp only [RegisterWithConsul]
  generalize register w { s with cr := substituteHostIP w s.cr } = r at h ⊢
  obtain ⟨e, s1⟩ := r
  simp only at h
  cases e <;> cases autoDeregister <;> simp [State.emit, h]

theorem RegisterWithConsul_SvcHealthURL (w : World) (autoDeregister : Bool) (s : State) :
    (RegisterWithConsul w autoDeregister s).2.cr.SvcHealthURL
      = (substituteHostIP w s.cr).SvcHealthURL := by
  have h := register_cr w { s with cr := substituteHostIP w s.cr }
  simp only [RegisterWithConsul]
  generalize register w { s with cr := substituteHostIP w s.cr } = r at h ⊢
  obtain ⟨e, s1⟩ := r
  simp only at h
  cases e <;> cases autoDeregister <;> simp [State.emit, h]

theorem DeregisterWithConsul_cr (w : World) (s : State) :
    (DeregisterWithConsul w s).2.cr = s.cr := by
  have h := deregister_cr w (s.emit (Event.Printf (attemptMessage s.cr)))
  simp only [DeregisterWithConsul]
  split
  · generalize deregister w (s.emit (Event.Printf (attemptMessage s.cr))) = r at h ⊢
    obtain ⟨e, s1⟩ := r
    simp only at h
    cases e <;> simp [State.emit, h]
  · rfl

/-- With the flag set and the client built, `DeregisterWithConsul` makes the calls
`NewClient`, `ServiceDeregister` and returns what the latter returns. -/
theorem DeregisterWithConsul_built (w : World) (s : State)
    (hreg : s.cr.Registered = true)
    (hc : w.NewClient (s.trace ++ [Event.Printf (attemptMessage s.cr)]) s.cr.ConsulURL
      = none) :
    (DeregisterWithConsul w s).1
      = w.ServiceDeregister
          (s.trace ++ [Event.Printf (attemptMessage s.cr), Event.NewClient s.cr.ConsulURL])
          s.cr.ConsulURL s.cr.SvcID ∧
    registryCalls (DeregisterWithConsul w s).2.trace
      = registryCalls s.trace ++ [Event.NewClient s.cr.ConsulURL,
          Event.ServiceDeregister s.cr.ConsulURL s.cr.SvcID] ∧
    deregistrations (DeregisterWithConsul w s).2.trace
      = deregistrations s.trace ++ [(s.cr.ConsulURL, s.cr.SvcID)] := by
  simp only [DeregisterWithConsul, hreg, if_true, deregister, State.emit, hc, List.append_assoc,
    List.singleton_append]
  cases w.ServiceDeregister
      (s.trace ++ [Event.Printf (attemptMessage s.cr), Event.NewClient s.cr.ConsulURL])
      s.cr.ConsulURL s.cr.SvcID <;>
    simp [registryCalls, deregistrations, Event.isRegistryCall]

/-- With the flag set and client construction failing, `DeregisterWithConsul` makes the
call `NewClient` only and returns its error. -/
theorem DeregisterWithConsul_unbuilt (w : World) (s : State) (err : Error)
    (hreg : s.cr.Registered = true)
    (hc : w.NewClient (s.trace ++ [Event.Printf (attemptMessage s.cr)]) s.cr.ConsulURL
      = some err) :
    (DeregisterWithConsul w s).1 = some err ∧
    registryCalls (DeregisterWithConsul w s).2.trace
      = registryCalls s.trace ++ [Event.NewClient s.cr.ConsulURL] ∧
    deregistrations (DeregisterWithConsul w s).2.trace = deregistrations s.trace := by
  simp [DeregisterWithConsul, hreg, deregister, State.emit, hc, registryCalls,
    deregistrations, Event.isRegistryCall]

/-- With the flag set, `DeregisterWithConsul` requests exactly one client, for
`ConsulURL`, whatever the world answers. -/
theorem DeregisterWithConsul_attempt (w : World) (s : State)
    (hreg : s.cr.Registered = true) :
    clientsRequested (DeregisterWithConsul w s).2.trace
      = clientsRequested s.trace ++ [s.cr.ConsulURL] := by
  simp only [DeregisterWithConsul, hreg, if_true, deregister, State.emit]
  cases w.NewClient (s.trace ++ [Event.Printf (attemptMessage s.cr)]) s.cr.ConsulURL with
  | some err => simp [clientsRequested]
  | none =>
    simp only []
    cases w.ServiceDeregister
        ((s.trace ++ [Event.Printf (attemptMessage s.cr)]) ++ [Event.NewClient s.cr.ConsulURL])
        s.cr.ConsulURL s.cr.SvcID <;>
      simp [clientsRequested]

theorem register_hooksStarted (w : World) (s : State) :
    hooksStarted (register w s).2.trace = hooksStarted s.trace := by
  simp only [register]
  cases w.NewClient s.trace s.cr.ConsulURL with
  | some err => simp [State.emit, hooksStarted]
  | none =>
    simp only []
    cases w.ServiceRegister (s.emit (Event.NewClient s.cr.ConsulURL)).trace s.cr.ConsulURL
      (consulService s.cr) <;> simp [State.emit, hooksStarted]

/-- A successful `RegisterWithConsul` sets the flag and keeps the identity and the
registry address of the registration. -/
theorem RegisterWithConsul_ok (w : World) (autoDeregister : Bool) (s : State)
    (hok : (RegisterWithConsul w autoDeregister s).1 = none) :
    (RegisterWithConsul w autoDeregister s).2.cr.Registered = true ∧
    (RegisterWithConsul w autoDeregister s).2.cr.ConsulURL = s.cr.ConsulURL ∧
    (RegisterWithConsul w autoDeregister s).2.cr.SvcID = s.cr.SvcID := by
  have h := register_cr w { s with cr := substituteHostIP w s.cr }
  revert hok
  simp only [RegisterWithConsul]
  generalize register w { s with cr := substituteHostIP w s.cr } = r at h ⊢
  obtain ⟨e, s1⟩ := r
  simp only at h
  cases e <;> cases autoDeregister <;> simp [State.emit, h]

/-- A second call leaves `SvcIP` as the first call left it. -/
theorem second_call_SvcIP (w : World) (auto1 auto2 : Bool) (s : State) :
    (RegisterWithConsul w auto2 (RegisterWithConsul w auto1 s).2).2.cr.SvcIP
      = (RegisterWithConsul w auto1 s).2.cr.SvcIP := by
  rw [RegisterWithConsul_SvcIP w auto2]
  generalize hs1 : (RegisterWithConsul w auto1 s).2 = s1
  have hip : s1.cr.SvcIP = (substituteHostIP w s.cr).SvcIP := by
    rw [← hs1]; exact RegisterWithConsul_SvcIP w auto1 s
  have hurl : s1.cr.SvcHealthURL = (substituteHostIP w s.cr).SvcHealthURL := by
    rw [← hs1]; exact RegisterWithConsul_SvcHealthURL w auto1 s
  cases hw : w.HOST_IP with
  | none => simp [substituteHostIP, hw]
  | some hostIP =>
    by_cases hc1 : stringsContains s1.cr.SvcHealthURL "localhost" = true
    · by_cases hc : stringsContains s.cr.SvcHealthURL "localhost" = true
      · simp only [substituteHostIP, hw, hc, if_true] at hip
        simp only [substituteHostIP, hw, hc1, if_true]
        exact hip.symm
      · have hc2 : stringsContains s.cr.SvcHealthURL "localhost" = false := by
          simpa using hc
        simp only [substituteHostIP, hw, hc2] at hurl
        rw [hurl] at hc1
        exact absurd hc1 hc
    · simp [substituteHostIP, hw, hc1]

/-- A second call leaves `SvcHealthURL` as the first call left it when the first call
left no `localhost` in it. -/
theorem second_call_SvcHealthURL (w : World) (auto1 auto2 : Bool) (s : State) :
    stringsContains (RegisterWithConsul w auto1 s).2.cr.SvcHealthURL "localhost" = false →
      (RegisterWithConsul w auto2 (RegisterWithConsul w auto1 s).2).2.cr.SvcHealthURL
        = (RegisterWithConsul w auto1 s).2.cr.SvcHealthURL := by
  intro hgone
  rw [RegisterWithConsul_SvcHealthURL w auto2]
  unfold substituteHostIP
  cases w.HOST_IP <;> simp [hgone]

/-! ## Registration -/

/-- C1: for a registration whose `Registered` flag is false and any `autoDeregister`,
if the client is built and the agent accepts the request then `RegisterWithConsul`
returns nil and `Registered` is true afterwards; if client construction fails, or the
registration call fails, it returns that very error, `Registered` is still false, and
the registry saw a single attempt (one `NewClient`, at most one `ServiceRegister`). -/
theorem RegisterWithConsul_outcome (w : World) (autoDeregister : Bool) (s : State)
    (hreg : s.cr.Registered = false) :
    (w.NewClient s.trace s.cr.ConsulURL = none →
      w.ServiceRegister (s.trace ++ [Event.NewClient s.cr.ConsulURL]) s.cr.ConsulURL
        (consulService (substituteHostIP w s.cr)) = none →
      (RegisterWithConsul w autoDeregister s).1 = none ∧
      (RegisterWithConsul w autoDeregister s).2.cr.Registered = true) ∧
    (∀ err, w.NewClient s.trace s.cr.ConsulURL = some err →
      (RegisterWithConsul w autoDeregister s).1 = some err ∧
      (RegisterWithConsul w autoDeregister s).2.cr.Registered = false ∧
      registryCalls (RegisterWithConsul w autoDeregister s).2.trace
        = registryCalls s.trace ++ [Event.NewClient s.cr.ConsulURL]) ∧
    (∀ err, w.NewClient s.trace s.cr.ConsulURL = none →
      w.ServiceRegister (s.trace ++ [Event.NewClient s.cr.ConsulURL]) s.cr.ConsulURL
        (consulService (substituteHostIP w s.cr)) = some err →
      (RegisterWithConsul w autoDeregister s).1 = some err ∧
      (RegisterWithConsul w autoDeregister s).2.cr.Registered = false ∧
      registryCalls (RegisterWithConsul w autoDeregister s).2.trace
        = registryCalls s.trace ++ [Event.NewClient s.cr.ConsulURL,
            Event.ServiceRegister s.cr.ConsulURL (consulService (substituteHostIP w s.cr))]) := by
  refine ⟨?_, ?_, ?_⟩
  · intro h1 h2
    cases autoDeregister <;>
      simp [RegisterWithConsul, register, State.emit, h1, h2]
  · intro err h1
    simp [RegisterWithConsul, register, State.emit, h1, hreg, registryCalls,
      Event.isRegistryCall]
  · intro err h1 h2
    simp [RegisterWithConsul, register, State.emit, h1, h2, hreg, registryCalls,
      Event.isRegistryCall]

/-- Instances of C1: the default registration against an agent that accepts, against
an address `api.NewClient` rejects, and against an agent that refuses. -/
theorem RegisterWithConsul_outcome_witness :
    fresh.cr.Registered = false ∧
    ((RegisterWithConsul agentUp true fresh).1 = none ∧
      (RegisterWithConsul agentUp true fresh).2.cr.Registered = true) ∧
    ((RegisterWithConsul unknownScheme false
        { fresh with cr := { fresh.cr with ConsulURL := "ftp://consul:8500" } }).1
        = some ⟨"Unknown protocol scheme: ftp"⟩) ∧
    ((RegisterWithConsul agentDown true fresh).1 = some ⟨"connection refused"⟩ ∧
      (RegisterWithConsul agentDown true fresh).2.cr.Registered = false) :=
  ⟨rfl,
   (RegisterWithConsul_outcome agentUp true fresh rfl).1 rfl rfl,
   ((RegisterWithConsul_outcome unknownScheme false
      { fresh with cr := { fresh.cr with ConsulURL := "ftp://consul:8500" } } rfl).2.1
      ⟨"Unknown protocol scheme: ftp"⟩ (by decide)).1,
   ((RegisterWithConsul_outcome agentDown true fresh rfl).2.2
      ⟨"connection refused"⟩ rfl rfl).1,
   ((RegisterWithConsul_outcome agentDown true fresh rfl).2.2
      ⟨"connection refused"⟩ rfl rfl).2.1⟩

/-- C4 fails as stated: for a registration whose `SvcHealthURL` is `status`, the
request `register` sends has the health URL `http://localhost:8080status`, in which no
slash separates the port from the path, so it is not of the form
`protocol://ip:port/healthPath`. -/
theorem RegisterSendsFormedURL_counterexample :
    registrations (register agentUp barePath).2.trace =
      [("localhost:8500",
        { ID := "svc-1", Name := "svc", Tags := [], Port := 8080, Checks := []
          Check := some
            { TLSSkipVerify := true, Interval := "10s", Timeout := "5s",
              HTTP := "http://localhost:8080status", Status := "passing" } })] ∧
    ¬ RegisterSendsFormedURL agentUp barePath := by
  have hsent : registrations (register agentUp barePath).2.trace =
      [("localhost:8500",
        { ID := "svc-1", Name := "svc", Tags := [], Port := 8080, Checks := []
          Check := some
            { TLSSkipVerify := true, Interval := "10s", Timeout := "5s",
              HTTP := "http://localhost:8080status", Status := "passing" } })] := by
    decide
  refine ⟨hsent, ?_⟩
  intro hform
  obtain ⟨check, hcheck, ⟨path⟩, hpath⟩ := hform _ (by rw [hsent]; exact List.mem_singleton.mpr rfl)
  simp only [Option.some.injEq] at hcheck
  subst hcheck
  have e : (barePath.cr.SvcProtocol ++ "://" ++ barePath.cr.SvcIP ++ ":"
      ++ strconvItoa barePath.cr.SvcPort ++ "/") = "http://localhost:8080/" := by decide
  rw [e] at hpath
  have h := congrArg String.data hpath
  simp only [String.data_append] at h
  simp at h

/-- C4, amended: whatever `register` sends as a service registration goes to
`ConsulURL` and carries `ID = SvcID`, `Name = SvcName`, `Tags = SvcTags`,
`Port = SvcPort`, and a single health check with interval `10s`, timeout `5s`, status
`passing`, `TLSSkipVerify = SvcSkipSSL` and the HTTP URL that is the plain concatenation
of `SvcProtocol`, `://`, `SvcIP`, `:`, the decimal rendering of `SvcPort`, and
`SvcHealthURL`, with nothing put between the port and `SvcHealthURL`; that URL has the
form `protocol://ip:port/healthPath` when `SvcHealthURL` begins with a slash; and when
the client is built exactly one such request is sent. -/
theorem register_request (w : World) (s : State) :
    ∃ sent : List Event, (register w s).2.trace = s.trace ++ sent ∧
      (∀ a req, Event.ServiceRegister a req ∈ sent →
        a = s.cr.ConsulURL ∧ req.ID = s.cr.SvcID ∧ req.Name = s.cr.SvcName ∧
        req.Tags = s.cr.SvcTags ∧ req.Port = s.cr.SvcPort ∧ req.Checks = [] ∧
        req.Check = some
          { TLSSkipVerify := s.cr.SvcSkipSSL
            Interval := "10s"
            Timeout := "5s"
            HTTP := s.cr.SvcProtocol ++ "://" ++ s.cr.SvcIP ++ ":"
              ++ strconvItoa s.cr.SvcPort ++ s.cr.SvcHealthURL
            Status := "passing" } ∧
        (∀ path : String, s.cr.SvcHealthURL = "/" ++ path →
          ∃ check, req.Check = some check ∧ HealthURLHasForm s.cr check.HTTP)) ∧
      (w.NewClient s.trace s.cr.ConsulURL = none → (registrations sent).length = 1) := by
  unfold register
  cases h1 : w.NewClient s.trace s.cr.ConsulURL with
  | some err =>
    exact ⟨[Event.NewClient s.cr.ConsulURL], by simp [State.emit], by simp, by simp⟩
  | none =>
    refine ⟨[Event.NewClient s.cr.ConsulURL,
      Event.ServiceRegister s.cr.ConsulURL (consulService s.cr)], ?_, ?_, ?_⟩
    · simp only [State.emit]
      split <;> simp
    · intro a req hmem
      simp at hmem
      obtain ⟨ha, hr⟩ := hmem
      subst ha hr
      refine ⟨rfl, rfl, rfl, rfl, rfl, rfl, rfl, ?_⟩
      intro path hpath
      refine ⟨_, rfl, path, ?_⟩
      rw [hpath, String.append_assoc _ "/" path]
    · intro _
      simp [registrations]

/-- Instance of the amended C4: the request sent for the default registration of `svc`
on port 8080 is the only one and has the health URL `http://localhost:8080/health`,
which has the form `protocol://ip:port/healthPath`. -/
theorem register_request_witness :
    agentUp.NewClient fresh.trace fresh.cr.ConsulURL = none ∧
    fresh.cr.SvcHealthURL = "/" ++ "health" ∧
    registrations (register agentUp fresh).2.trace =
      [("localhost:8500",
        { ID := "svc-1", Name := "svc", Tags := [], Port := 8080, Checks := []
          Check := some
            { TLSSkipVerify := true, Interval := "10s", Timeout := "5s",
              HTTP := "http://localhost:8080/health", Status := "passing" } })] ∧
    HealthURLHasForm fresh.cr "http://localhost:8080/health" ∧
    ∃ sent : List Event, (register agentUp fresh).2.trace = fresh.trace ++ sent ∧
      (registrations sent).length = 1 :=
  ⟨rfl, by decide, by decide, by
    obtain ⟨sent, _, h2, _⟩ := register_request agentUp fresh
    obtain ⟨check, hc, hform⟩ :=
      (h2 "localhost:8500" (consulService fresh.cr) (by
        have hs : (register agentUp fresh).2.trace = fresh.trace ++ sent := by assumption
        have hm : Event.ServiceRegister "localhost:8500" (consulService fresh.cr)
            ∈ (register agentUp fresh).2.trace := by decide
        rw [hs] at hm
        simpa [fresh] using hm)).2.2.2.2.2.2.2 "health" (by decide)
    have hk : check.HTTP = "http://localhost:8080/health" := by
      have : (consulService fresh.cr).Check
          = some { TLSSkipVerify := true, Interval := "10s", Timeout := "5s",
                   HTTP := "http://localhost:8080/health", Status := "passing" } := by
        decide
      rw [this] at hc
      simp only [Option.some.injEq] at hc
      rw [← hc]
    rw [← hk]
    exact hform, by
    obtain ⟨sent, h1, _, h3⟩ := register_request agentUp fresh
    exact ⟨sent, h1, h3 rfl⟩⟩

/-- C5: `GetRegistration name id port` has `SvcName = name`, `SvcID = id`,
`SvcPort = port`, protocol `http`, IP `localhost`, health path `/health`, registry
`localhost:8500`, `SvcSkipSSL = true`, `Registered = false` and no tags; the health-check
URL `register` computes from it is `http://localhost:` followed by the decimal port
followed by `/health`, which for port 8080 is `http://localhost:8080/health`. -/
theorem GetRegistration_defaults (name id : String) (port : Int) :
    (GetRegistration name id port).SvcName = name ∧
    (GetRegistration name id port).SvcID = id ∧
    (GetRegistration name id port).SvcPort = port ∧
    (GetRegistration name id port).SvcProtocol = "http" ∧
    (GetRegistration name id port).SvcIP = "localhost" ∧
    (GetRegistration name id port).SvcHealthURL = "/health" ∧
    (GetRegistration name id port).ConsulURL = "localhost:8500" ∧
    (GetRegistration name id port).SvcSkipSSL = true ∧
    (GetRegistration name id port).Registered = false ∧
    (GetRegistration name id port).SvcTags = [] ∧
    (consulService (GetRegistration name id port)).Check.map (·.HTTP)
      = some ("http://localhost:" ++ strconvItoa port ++ "/health") ∧
    (consulService (GetRegistration "svc" "svc-1" 8080)).Check.map (·.HTTP)
      = some "http://localhost:8080/health" :=
  ⟨rfl, rfl, rfl, rfl, rfl, rfl, rfl, rfl, rfl, rfl, rfl, by decide⟩

/-! ## Deregistration -/

/-- C2: for a registration whose `Registered` flag is false, `DeregisterWithConsul`
returns nil and performs no effect at all: no client is built and no deregistration
call is issued. -/
theorem DeregisterWithConsul_unregistered (w : World) (s : State)
    (hreg : s.cr.Registered = false) :
    DeregisterWithConsul w s = (none, s) := by
  simp [DeregisterWithConsul, hreg]

/-- Instance of C2: deregistering the default registration, never registered, against
an agent that would refuse. -/
theorem DeregisterWithConsul_unregistered_witness :
    fresh.cr.Registered = false ∧ DeregisterWithConsul agentDown fresh = (none, fresh) :=
  ⟨rfl, DeregisterWithConsul_unregistered agentDown fresh rfl⟩

/-- C3 fails as stated: for a registration with the flag set whose `ConsulURL` is
`ftp://consul:8500`, client construction fails, `DeregisterWithConsul` returns that
error and no deregistration call is issued. -/
theorem DeregistersOnce_counterexample :
    registeredAtFtp.cr.Registered = true ∧
    (DeregisterWithConsul unknownScheme registeredAtFtp).1
      = some ⟨"Unknown protocol scheme: ftp"⟩ ∧
    deregistrations (DeregisterWithConsul unknownScheme registeredAtFtp).2.trace = [] ∧
    ¬ DeregistersOnce unknownScheme registeredAtFtp := by
  refine ⟨rfl, by decide, by decide, ?_⟩
  intro h
  have h1 := h.1
  revert h1
  decide

/-- C3, amended: for a registration whose `Registered` flag is true, one call of
`DeregisterWithConsul` builds one client for `ConsulURL`; if that succeeds it issues
exactly one deregistration call, for the stored `SvcID`, and returns exactly the
result of that call; if client construction fails it returns that error and issues no
deregistration call. Nothing is retried. -/
theorem DeregisterWithConsul_registered (w : World) (s : State)
    (hreg : s.cr.Registered = true) :
    (w.NewClient (s.trace ++ [Event.Printf (attemptMessage s.cr)]) s.cr.ConsulURL = none →
      DeregistersOnce w s ∧
      registryCalls (DeregisterWithConsul w s).2.trace
        = registryCalls s.trace ++ [Event.NewClient s.cr.ConsulURL,
            Event.ServiceDeregister s.cr.ConsulURL s.cr.SvcID]) ∧
    (∀ err,
      w.NewClient (s.trace ++ [Event.Printf (attemptMessage s.cr)]) s.cr.ConsulURL
        = some err →
      (DeregisterWithConsul w s).1 = some err ∧
      deregistrations (DeregisterWithConsul w s).2.trace = deregistrations s.trace ∧
      registryCalls (DeregisterWithConsul w s).2.trace
        = registryCalls s.trace ++ [Event.NewClient s.cr.ConsulURL]) := by
  constructor
  · intro hc
    obtain ⟨h1, h2, h3⟩ := DeregisterWithConsul_built w s hreg hc
    exact ⟨⟨h3, h1⟩, h2⟩
  · intro err hc
    obtain ⟨h1, h2, h3⟩ := DeregisterWithConsul_unbuilt w s err hreg hc
    exact ⟨h1, h3, h2⟩

/-- Instances of the amended C3: a registered service against an agent that accepts,
against an agent that refuses, and at an address `api.NewClient` rejects. -/
theorem DeregisterWithConsul_registered_witness :
    registered.cr.Registered = true ∧
    (DeregistersOnce agentUp registered ∧ (DeregisterWithConsul agentUp registered).1 = none) ∧
    (DeregistersOnce agentDown registered ∧
      (DeregisterWithConsul agentDown registered).1 = some ⟨"connection refused"⟩) ∧
    registryCalls (DeregisterWithConsul unknownScheme registeredAtFtp).2.trace
      = [Event.NewClient "ftp://consul:8500"] :=
  ⟨rfl,
   ⟨((DeregisterWithConsul_registered agentUp registered rfl).1 rfl).1, by decide⟩,
   ⟨((DeregisterWithConsul_registered agentDown registered rfl).1 rfl).1, by decide⟩,
   ((DeregisterWithConsul_registered unknownScheme registeredAtFtp rfl).2
      ⟨"Unknown protocol scheme: ftp"⟩ (by decide)).2.2⟩

/-- C10 fails as stated: a service that registered successfully and then can no longer
build a client issues no deregistration call in two consecutive calls of
`DeregisterWithConsul`, each of which returns the construction error. -/
theorem DeregisterKeepsFlagAndRepeats_counterexample :
    (RegisterWithConsul clientLost false fresh).1 = none ∧
    (RegisterWithConsul clientLost false fresh).2.cr.Registered = true ∧
    deregistrations
      (DeregisterWithConsul clientLost
        (DeregisterWithConsul clientLost
          (RegisterWithConsul clientLost false fresh).2).2).2.trace = [] ∧
    ¬ DeregisterKeepsFlagAndRepeats clientLost (RegisterWithConsul clientLost false fresh).2 := by
  refine ⟨by decide, by decide, by decide, ?_⟩
  intro h
  have h1 := h.2 (by decide)
  revert h1
  decide

/-- C10, amended: `DeregisterWithConsul` leaves every field of the registration,
`Registered` included, as it was, on success and on failure alike; so each of two
consecutive calls on a registered service attempts the deregistration again, requesting
one client for `ConsulURL` per call in every world, and the two calls issue two
deregistration calls for the same `SvcID` when the client is built both times. -/
theorem DeregisterWithConsul_keeps_flag (w : World) (s : State) :
    (DeregisterWithConsul w s).2.cr = s.cr ∧
    (s.cr.Registered = true →
      clientsRequested (DeregisterWithConsul w s).2.trace
        = clientsRequested s.trace ++ [s.cr.ConsulURL] ∧
      clientsRequested (DeregisterWithConsul w (DeregisterWithConsul w s).2).2.trace
        = clientsRequested s.trace ++ [s.cr.ConsulURL, s.cr.ConsulURL]) ∧
    (s.cr.Registered = true →
      w.NewClient (s.trace ++ [Event.Printf (attemptMessage s.cr)]) s.cr.ConsulURL = none →
      w.NewClient ((DeregisterWithConsul w s).2.trace ++ [Event.Printf (attemptMessage s.cr)])
        s.cr.ConsulURL = none →
      deregistrations (DeregisterWithConsul w (DeregisterWithConsul w s).2).2.trace
        = deregistrations s.trace
          ++ [(s.cr.ConsulURL, s.cr.SvcID), (s.cr.ConsulURL, s.cr.SvcID)]) := by
  have hcr := DeregisterWithConsul_cr w s
  refine ⟨hcr, ?_, ?_⟩
  · intro hreg
    have h1 := DeregisterWithConsul_attempt w s hreg
    have h2 := DeregisterWithConsul_attempt w (DeregisterWithConsul w s).2
      (by rw [hcr]; exact hreg)
    refine ⟨h1, ?_⟩
    rw [h2, h1, hcr]
    simp
  · intro hreg hc1 hc2
    obtain ⟨_, _, hd1⟩ := DeregisterWithConsul_built w s hreg hc1
    obtain ⟨_, _, hd2⟩ := DeregisterWithConsul_built w (DeregisterWithConsul w s).2
      (by rw [hcr]; exact hreg) (by rw [hcr]; exact hc2)
    rw [hd2, hd1, hcr]
    simp

/-- Instances of the amended C10: two consecutive calls on a registered service against
an agent that accepts issue two deregistration calls for `svc-1`, and the flag stays
set; at an address `api.NewClient` rejects, each of the two calls still requests a
client. -/
theorem DeregisterWithConsul_keeps_flag_witness :
    registered.cr.Registered = true ∧
    (DeregisterWithConsul agentUp registered).2.cr.Registered = true ∧
    deregistrations (DeregisterWithConsul agentUp (DeregisterWithConsul agentUp registered).2).2.trace
      = [("localhost:8500", "svc-1"), ("localhost:8500", "svc-1")] ∧
    registeredAtFtp.cr.Registered = true ∧
    clientsRequested
      (DeregisterWithConsul unknownScheme
        (DeregisterWithConsul unknownScheme registeredAtFtp).2).2.trace
      = ["ftp://consul:8500", "ftp://consul:8500"] :=
  ⟨rfl, by decide,
   (DeregisterWithConsul_keeps_flag agentUp registered).2.2 rfl rfl rfl,
   rfl,
   ((DeregisterWithConsul_keeps_flag unknownScheme registeredAtFtp).2.1 rfl).2⟩

/-! ## Shutdown hook -/

/-- C9 fails as stated: when a client can no longer be built at shutdown, the hook
started by a successful `RegisterWithConsul(true)` exits with status 0 without having
issued a deregistration call. -/
theorem HookDeregistersOnce_counterexample :
    (RegisterWithConsul clientLost true fresh).1 = none ∧
    hooksStarted (RegisterWithConsul clientLost true fresh).2.trace = 1 ∧
    deregistrations
      (deregisterWithConsulOnSigTermOrInterrupt clientLost (some Signal.SIGTERM)
        (RegisterWithConsul clientLost true fresh).2).1.trace = [] ∧
    (deregisterWithConsulOnSigTermOrInterrupt clientLost (some Signal.SIGTERM)
      (RegisterWithConsul clientLost true fresh).2).2 = some 0 ∧
    ¬ HookDeregistersOnce clientLost Signal.SIGTERM fresh := by
  refine ⟨by decide, by decide, by decide, by decide, ?_⟩
  intro h
  have h1 := (h (by decide)).1
  revert h1
  decide

/-- C9, amended: `RegisterWithConsul` starts the hook exactly when registration
succeeded and `autoDeregister` is true. Once a subscribed signal is delivered, the hook
invokes `DeregisterWithConsul` exactly once on the registration as it finds it and then
exits with status 0, whatever that call returned. After a successful
`RegisterWithConsul(true)` the flag is set, so the hook builds one client and, if that
succeeds, issues exactly one deregistration call for the stored `SvcID`; if client
construction fails it issues none. -/
theorem shutdown_hook (w : World) (autoDeregister : Bool) (sig : Signal) (s : State) :
    hooksStarted (RegisterWithConsul w autoDeregister s).2.trace
      = hooksStarted s.trace
        + (if (RegisterWithConsul w autoDeregister s).1 = none ∧ autoDeregister = true
            then 1 else 0) ∧
    (∀ found : State,
      deregisterWithConsulOnSigTermOrInterrupt w (some sig) found
        = ((DeregisterWithConsul w found).2.emit (Event.Exit 0), some 0)) ∧
    ((RegisterWithConsul w true s).1 = none →
      (RegisterWithConsul w true s).2.cr.Registered = true ∧
      (w.NewClient
          ((RegisterWithConsul w true s).2.trace
            ++ [Event.Printf (attemptMessage (RegisterWithConsul w true s).2.cr)])
          s.cr.ConsulURL = none →
        registryCalls
            (deregisterWithConsulOnSigTermOrInterrupt w (some sig)
              (RegisterWithConsul w true s).2).1.trace
          = registryCalls (RegisterWithConsul w true s).2.trace
            ++ [Event.NewClient s.cr.ConsulURL,
                Event.ServiceDeregister s.cr.ConsulURL s.cr.SvcID]) ∧
      (∀ err,
        w.NewClient
          ((RegisterWithConsul w true s).2.trace
            ++ [Event.Printf (attemptMessage (RegisterWithConsul w true s).2.cr)])
          s.cr.ConsulURL = some err →
        registryCalls
            (deregisterWithConsulOnSigTermOrInterrupt w (some sig)
              (RegisterWithConsul w true s).2).1.trace
          = registryCalls (RegisterWithConsul w true s).2.trace
            ++ [Event.NewClient s.cr.ConsulURL])) := by
  refine ⟨?_, fun _ => rfl, ?_⟩
  · have h := register_hooksStarted w { s with cr := substituteHostIP w s.cr }
    simp only [RegisterWithConsul]
    generalize register w { s with cr := substituteHostIP w s.cr } = r at h ⊢
    obtain ⟨e, s1⟩ := r
    simp only at h
    have hgo : hooksStarted [Event.Go] = 1 := rfl
    have hpr : ∀ m, hooksStarted [Event.Printf m] = 0 := fun _ => rfl
    cases e <;> cases autoDeregister <;> simp [State.emit, h, hgo, hpr]
  · intro hok
    obtain ⟨hreg, hurl, hid⟩ := RegisterWithConsul_ok w true s hok
    refine ⟨hreg, ?_, ?_⟩
    · intro hc
      rw [← hurl] at hc
      obtain ⟨_, h2, _⟩ := DeregisterWithConsul_built w _ hreg hc
      simp only [deregisterWithConsulOnSigTermOrInterrupt, State.emit, registryCalls_append,
        h2, hurl, hid]
      simp [registryCalls, Event.isRegistryCall]
    · intro err hc
      rw [← hurl] at hc
      obtain ⟨_, h2, _⟩ := DeregisterWithConsul_unbuilt w _ err hreg hc
      simp only [deregisterWithConsulOnSigTermOrInterrupt, State.emit, registryCalls_append,
        h2, hurl]
      simp [registryCalls, Event.isRegistryCall]

/-- Instance of the amended C9: the default registration, registered with
`autoDeregister` against an agent that accepts, then SIGTERM: one hook is started, and
it makes one deregistration call for `svc-1` and exits with status 0. -/
theorem shutdown_hook_witness :
    (RegisterWithConsul agentUp true fresh).1 = none ∧
    hooksStarted (RegisterWithConsul agentUp true fresh).2.trace = 1 ∧
    deregisterWithConsulOnSigTermOrInterrupt agentUp (some Signal.SIGTERM)
        (RegisterWithConsul agentUp true fresh).2
      = ((DeregisterWithConsul agentUp (RegisterWithConsul agentUp true fresh).2).2.emit
          (Event.Exit 0), some 0) ∧
    registryCalls
        (deregisterWithConsulOnSigTermOrInterrupt agentUp (some Signal.SIGTERM)
          (RegisterWithConsul agentUp true fresh).2).1.trace
      = registryCalls (RegisterWithConsul agentUp true fresh).2.trace
        ++ [Event.NewClient "localhost:8500",
            Event.ServiceDeregister "localhost:8500" "svc-1"] :=
  ⟨by decide, by decide,
   (shutdown_hook agentUp true Signal.SIGTERM fresh).2.1 _,
   ((shutdown_hook agentUp true Signal.SIGTERM fresh).2.2 (by decide)).2.1 (by decide)⟩

/-! ## Host-IP substitution -/

/-- C6: when `HOST_IP` is set to `h` and `SvcHealthURL` contains `localhost`, then after
`RegisterWithConsul` the field `SvcIP` is `h` and `SvcHealthURL` is its former value with
the first instance of `localhost`, and only that one, replaced by `h`. -/
theorem RegisterWithConsul_substitutes (w : World) (autoDeregister : Bool) (s : State)
    (h : String) (hset : w.HOST_IP = some h)
    (hloc : stringsContains s.cr.SvcHealthURL "localhost" = true) :
    (RegisterWithConsul w autoDeregister s).2.cr.SvcIP = h ∧
    FirstInstanceReplaced s.cr.SvcHealthURL "localhost" h
      (RegisterWithConsul w autoDeregister s).2.cr.SvcHealthURL := by
  rw [RegisterWithConsul_SvcIP, RegisterWithConsul_SvcHealthURL]
  constructor
  · simp [substituteHostIP, hset, hloc]
  · have hrep := stringsReplace_first s.cr.SvcHealthURL "localhost" h (by decide) hloc
    simpa [substituteHostIP, hset, hloc] using hrep

/-- Instance of C6: with `HOST_IP=10.0.0.5`, the health URL
`http://localhost:8080/health` becomes `http://10.0.0.5:8080/health`. -/
theorem RegisterWithConsul_substitutes_witness :
    hostIPSet.HOST_IP = some "10.0.0.5" ∧
    stringsContains oneLocalhost.cr.SvcHealthURL "localhost" = true ∧
    (RegisterWithConsul hostIPSet false oneLocalhost).2.cr.SvcIP = "10.0.0.5" ∧
    (RegisterWithConsul hostIPSet false oneLocalhost).2.cr.SvcHealthURL
      = "http://10.0.0.5:8080/health" ∧
    FirstInstanceReplaced oneLocalhost.cr.SvcHealthURL "localhost" "10.0.0.5"
      (RegisterWithConsul hostIPSet false oneLocalhost).2.cr.SvcHealthURL :=
  ⟨rfl, by decide,
   (RegisterWithConsul_substitutes hostIPSet false oneLocalhost "10.0.0.5" rfl
      (by decide)).1,
   by decide,
   (RegisterWithConsul_substitutes hostIPSet false oneLocalhost "10.0.0.5" rfl
      (by decide)).2⟩

/-- C8: `RegisterWithConsul` leaves `SvcIP` and `SvcHealthURL` as they were when
`HOST_IP` is not set or `SvcHealthURL` does not contain `localhost`, whether or not the
registration succeeds; in particular a default-constructed registration keeps
`SvcIP = localhost` and `SvcHealthURL = /health` even when `HOST_IP` is set. -/
theorem RegisterWithConsul_frame (w : World) (autoDeregister : Bool) (s : State) :
    ((w.HOST_IP = none ∨ stringsContains s.cr.SvcHealthURL "localhost" = false) →
      (RegisterWithConsul w autoDeregister s).2.cr.SvcIP = s.cr.SvcIP ∧
      (RegisterWithConsul w autoDeregister s).2.cr.SvcHealthURL = s.cr.SvcHealthURL) ∧
    (∀ name id port, s.cr = GetRegistration name id port →
      (RegisterWithConsul w autoDeregister s).2.cr.SvcIP = "localhost" ∧
      (RegisterWithConsul w autoDeregister s).2.cr.SvcHealthURL = "/health") := by
  rw [RegisterWithConsul_SvcIP, RegisterWithConsul_SvcHealthURL]
  constructor
  · rintro (h | h)
    · simp [substituteHostIP, h]
    · unfold substituteHostIP
      cases w.HOST_IP <;> simp [h]
  · intro name id port hcr
    have hd : stringsContains "/health" "localhost" = false := by decide
    have hc : stringsContains s.cr.SvcHealthURL "localhost" = false := by
      rw [hcr]
      exact hd
    unfold substituteHostIP
    cases w.HOST_IP <;> simp [hc] <;> simp [hcr, GetRegistration]

/-- Instances of C8: no `HOST_IP` with a health URL naming `localhost`, against an agent
that refuses; and `HOST_IP` set with the default registration. -/
theorem RegisterWithConsul_frame_witness :
    agentDown.HOST_IP = none ∧
    ((RegisterWithConsul agentDown true oneLocalhost).2.cr.SvcIP = "localhost" ∧
      (RegisterWithConsul agentDown true oneLocalhost).2.cr.SvcHealthURL
        = "http://localhost:8080/health") ∧
    hostIPSet.HOST_IP = some "10.0.0.5" ∧
    ((RegisterWithConsul hostIPSet true fresh).2.cr.SvcIP = "localhost" ∧
      (RegisterWithConsul hostIPSet true fresh).2.cr.SvcHealthURL = "/health") :=
  ⟨rfl, (RegisterWithConsul_frame agentDown true oneLocalhost).1 (Or.inl rfl),
   rfl, (RegisterWithConsul_frame hostIPSet true fresh).2 "svc" "svc-1" 8080 rfl⟩

/-- C7 fails as stated: with `HOST_IP=10.0.0.5` and the health URL
`/localhost/localhost`, the first call yields `/10.0.0.5/localhost`, which still
contains the placeholder, and the second call yields `/10.0.0.5/10.0.0.5`. It also
fails for a single occurrence when the value substituted brings the placeholder back:
with `HOST_IP=localhost` the health URL `http://localhost:8080/health` still contains
`localhost` after the call. -/
theorem SubstitutionIsOneTime_counterexample :
    (RegisterWithConsul hostIPSet false twoLocalhosts).2.cr.SvcHealthURL
      = "/10.0.0.5/localhost" ∧
    (RegisterWithConsul hostIPSet false
      (RegisterWithConsul hostIPSet false twoLocalhosts).2).2.cr.SvcHealthURL
      = "/10.0.0.5/10.0.0.5" ∧
    ¬ SubstitutionIsOneTime hostIPSet false false twoLocalhosts ∧
    ¬ SubstitutionIsOneTime hostIsLocalhost false false oneLocalhost := by
  refine ⟨by decide, by decide, ?_, ?_⟩
  · intro h
    have h1 := (h ⟨by decide, by decide⟩).1
    revert h1
    decide
  · intro h
    have h1 := (h ⟨by decide, by decide⟩).1
    revert h1
    decide

/-- C7, amended: when `SvcHealthURL` contains `localhost` exactly once and `HOST_IP` is
a non-empty value `h` sharing no character with `localhost` (a dotted-decimal address,
say), then after one call `SvcIP` is `h`, the placeholder is gone from `SvcHealthURL`,
and a second call under the same `HOST_IP` leaves `SvcIP` and `SvcHealthURL` exactly as
the first call left them. For every registration and every `HOST_IP`, a second call
leaves `SvcIP` as the first call left it, and leaves `SvcHealthURL` as the first call
left it whenever `localhost` no longer occurs in it after the first call. -/
theorem RegisterWithConsul_twice (w : World) (auto1 auto2 : Bool) (s : State) :
    (∀ h : String, w.HOST_IP = some h →
      occurrences "localhost".data s.cr.SvcHealthURL.data = 1 →
      h ≠ "" → (∀ c ∈ h.data, c ∉ "localhost".data) →
      (RegisterWithConsul w auto1 s).2.cr.SvcIP = h ∧
      stringsContains (RegisterWithConsul w auto1 s).2.cr.SvcHealthURL "localhost" = false ∧
      (RegisterWithConsul w auto2 (RegisterWithConsul w auto1 s).2).2.cr.SvcIP
        = (RegisterWithConsul w auto1 s).2.cr.SvcIP ∧
      (RegisterWithConsul w auto2 (RegisterWithConsul w auto1 s).2).2.cr.SvcHealthURL
        = (RegisterWithConsul w auto1 s).2.cr.SvcHealthURL) ∧
    (RegisterWithConsul w auto2 (RegisterWithConsul w auto1 s).2).2.cr.SvcIP
      = (RegisterWithConsul w auto1 s).2.cr.SvcIP ∧
    (stringsContains (RegisterWithConsul w auto1 s).2.cr.SvcHealthURL "localhost" = false →
      (RegisterWithConsul w auto2 (RegisterWithConsul w auto1 s).2).2.cr.SvcHealthURL
        = (RegisterWithConsul w auto1 s).2.cr.SvcHealthURL) := by
  have hip := second_call_SvcIP w auto1 auto2 s
  have hurl := second_call_SvcHealthURL w auto1 auto2 s
  refine ⟨?_, hip, hurl⟩
  intro h hset hocc hne hdis
  have hloc : stringsContains s.cr.SvcHealthURL "localhost" = true :=
    stringsContains_of_occurrences _ _ hocc
  have hgone : stringsContains (RegisterWithConsul w auto1 s).2.cr.SvcHealthURL "localhost"
      = false := by
    rw [RegisterWithConsul_SvcHealthURL]
    simp only [substituteHostIP, hset, hloc, if_true]
    exact stringsReplace_gone s.cr.SvcHealthURL "localhost" h (by decide) hocc hne hdis
  refine ⟨?_, hgone, hip, hurl hgone⟩
  rw [RegisterWithConsul_SvcIP]
  simp [substituteHostIP, hset, hloc]

/-- Instance of the amended C7: with `HOST_IP=10.0.0.5` and the health URL
`http://localhost:8080/health`, the placeholder is gone after the first call and the
second call changes neither field. -/
theorem RegisterWithConsul_twice_witness :
    hostIPSet.HOST_IP = some "10.0.0.5" ∧
    occurrences "localhost".data oneLocalhost.cr.SvcHealthURL.data = 1 ∧
    (RegisterWithConsul hostIPSet true oneLocalhost).2.cr.SvcHealthURL
      = "http://10.0.0.5:8080/health" ∧
    ((RegisterWithConsul hostIPSet true oneLocalhost).2.cr.SvcIP = "10.0.0.5" ∧
      stringsContains (RegisterWithConsul hostIPSet true oneLocalhost).2.cr.SvcHealthURL
        "localhost" = false ∧
      (RegisterWithConsul hostIPSet true
        (RegisterWithConsul hostIPSet true oneLocalhost).2).2.cr.SvcIP
        = (RegisterWithConsul hostIPSet true oneLocalhost).2.cr.SvcIP ∧
      (RegisterWithConsul hostIPSet true
        (RegisterWithConsul hostIPSet true oneLocalhost).2).2.cr.SvcHealthURL
        = (RegisterWithConsul hostIPSet true oneLocalhost).2.cr.SvcHealthURL) :=
  ⟨rfl, by decide, by decide,
   (RegisterWithConsul_twice hostIPSet true true oneLocalhost).1 "10.0.0.5" rfl
     (by decide) (by decide) (by decide)⟩

end consulsvc
